import Mathlib

/-!
Formal model of the cse303 unix server repository.

The development shallowly embeds the parts of the C++ sources that the
verified properties talk about:

* `ConcurrentHashTable` — the bucketed map of `src/p3/common/hashtable.h`
  and `src/p5/common/hashtable.h`.  A table is a list of buckets, each
  bucket a list of key/value pairs; the bucket of a key is chosen by an
  abstract hash function modulo the bucket count, exactly as the C++
  code does with `std::hash<K>{}(key) % num_buckets`.  Callbacks are
  modelled by returning the number of times each callback would run;
  whole-table scans are modelled by the trace of events (lock, apply,
  then-callback, unlock) they produce.
* `Storage` — the p3 storage facade of `src/p3/server/server_storage.cc`
  (auth table, kv store and the append-only log).
* `P1` — the p1 storage and command layer of
  `src/p1/server/server_storage.cc` and `src/p1/server/server_commands.cc`.
* `quota_tracker` — `src/p4/common/quota_tracker.cc`.
* `mru_manager` — `src/p4/common/mru.cc`.

Machine integers appear only as record-length fields written to the
persistence log; they are modelled as `Nat` rendered through `le32`
(four little-endian bytes), which agrees with the C++ `int` writes for
all sizes that occur here.  MD5 digests are modelled by abstract
function parameters: the C++ code hashes the raw bytes of a
`std::string` object (not its character data), so the digest is not a
function of the password text at all; the abstraction is the most
charitable deterministic reading, and every negative result below holds
for every choice of the abstract digest function.  Reads of
uninitialised memory (the quota tracker running sum, the `*end()`
dereference in `mru_manager::get`) are modelled by explicit "garbage"
parameters.
-/

/-- Bytes of a string, one `Nat` per character, as the C++ code writes a
`std::string` into a `vec` of unsigned chars. -/
def strBytes (s : String) : List Nat :=
  s.toList.map Char.toNat

/-- Four little-endian bytes of a length field, matching the 4-byte binary
write of an `int` in the persistence code. -/
def le32 (n : Nat) : List Nat :=
  [n % 256, n / 256 % 256, n / 65536 % 256, n / 16777216 % 256]

/-- Modelled from the spec: `common/protocol.h` is not under `src/`, so the
wire constants come from spec section 7, which says the catalog names are the
literal strings sent to the client. -/
def RES_OK : String := "OK"

/-- Modelled from the spec: success string for the insert branch of upsert. -/
def RES_OKINS : String := "OKINS"

/-- Modelled from the spec: success string for the update branch of upsert. -/
def RES_OKUPD : String := "OKUPD"

/-- Modelled from the spec: error string for a failed login. -/
def RES_ERR_LOGIN : String := "ERR_LOGIN"

/-- Modelled from the spec: error string for an absent (or, on insert, already
present) key. -/
def RES_ERR_KEY : String := "ERR_KEY"

/-- Modelled from the spec: error string for a malformed or out-of-bounds
request. -/
def RES_ERR_MSG_FMT : String := "ERR_MSG_FMT"

/-- Modelled from the spec: error string for a fetch that found no bytes. -/
def RES_ERR_NO_DATA : String := "ERR_NO_DATA"

/-- Modelled from the spec: error string for a request naming an unknown
user. -/
def RES_ERR_NO_USER : String := "ERR_NO_USER"

/-- Modelled from the spec: error string for registering an existing user. -/
def RES_ERR_USER_EXISTS : String := "ERR_USER_EXISTS"

/-- Modelled from the spec: maximum username length (spec section 3: username
is at most 64 bytes; the code comment in `server_storage.cc` agrees). -/
def LEN_UNAME : Nat := 64

/-- Modelled from the spec: maximum password length (the code comment says the
password is a max of 128 chars). -/
def LEN_PASS : Nat := 128

namespace ConcurrentHashTable

/-- A bucketed table: the vector of buckets, each bucket the vector of
key/value pairs stored in it (`hashTable` in p3, `buckets` in p5). -/
abbrev Table (V : Type) := List (List (String × V))

/-- Scan of one bucket for a key, returning its value: the linear search both
implementations perform inside a bucket. -/
def findVal {V : Type} (k : String) : List (String × V) → Option V
  | [] => none
  | e :: es => if e.1 = k then some e.2 else findVal k es

/-- Replacement of the value of the first pair holding `k`, as the update
branch of `upsert` does with `elements[i].second = val`. -/
def updateVal {V : Type} (k : String) (v : V) : List (String × V) → List (String × V)
  | [] => []
  | e :: es => if e.1 = k then (e.1, v) :: es else e :: updateVal k v es

/-- Bucket index of a key: `hash(key) % hashTable.size()`. -/
def bIdx {V : Type} (hsh : String → Nat) (t : Table V) (k : String) : Nat :=
  hsh k % t.length

/-- The `insert` operation of both hash tables: scan the bucket of the key;
if the key is present return false with no mutation and no callback;
otherwise append the pair to the bucket, run `on_success` once, and return
true.  The third component counts invocations of `on_success`.  The C++
code indexes the bucket array unchecked; the model reads the bucket with
`getD`, which agrees whenever the table has at least one bucket (the
constructor loop guarantees that for every table the server builds). -/
def insert {V : Type} (hsh : String → Nat) (t : Table V) (k : String) (v : V) :
    Bool × Table V × Nat :=
  let b := t.getD (bIdx hsh t k) []
  if (findVal k b).isNone then
    (true, t.set (bIdx hsh t k) (b ++ [(k, v)]), 1)
  else
    (false, t, 0)

/-- The `upsert` operation: if the key is present replace its value and run
`on_upd`; otherwise append the pair and run `on_ins`.  The last two
components count invocations of `on_ins` and `on_upd` respectively; the
boolean is true exactly on the insert branch. -/
def upsert {V : Type} (hsh : String → Nat) (t : Table V) (k : String) (v : V) :
    Bool × Table V × Nat × Nat :=
  let b := t.getD (bIdx hsh t k) []
  if (findVal k b).isNone then
    (true, t.set (bIdx hsh t k) (b ++ [(k, v)]), 1, 0)
  else
    (false, t.set (bIdx hsh t k) (updateVal k v b), 0, 1)

/-- Value lookup through the bucket of the key, the shape shared by
`do_with`, `do_with_readonly` and the membership scans. -/
def lookup {V : Type} (hsh : String → Nat) (t : Table V) (k : String) : Option V :=
  findVal k (t.getD (bIdx hsh t k) [])

/-- One observable event of a whole-table scan. -/
inductive ScanEv (V : Type) where
  | lockB : Nat → ScanEv V
  | app : String → V → ScanEv V
  | thenCb : ScanEv V
  | unlockB : Nat → ScanEv V
deriving DecidableEq

/-- Event trace of `do_all_readonly` in `src/p3/common/hashtable.h`: all
bucket locks are taken, then the `then` callback runs, and only afterwards
is `f` applied to the pairs, bucket by bucket, each bucket being unlocked
right after its own pairs. -/
def doAllTrace_p3 {V : Type} (t : Table V) : List (ScanEv V) :=
  ((List.range t.length).map ScanEv.lockB)
    ++ [ScanEv.thenCb]
    ++ t.enum.flatMap (fun ib =>
        (ib.2.map (fun e => ScanEv.app e.1 e.2)) ++ [ScanEv.unlockB ib.1])

/-- Event trace of `do_all_readonly` in `src/p5/common/hashtable.h`: all
bucket locks are taken, `f` is applied to every pair, then the `then`
callback runs, then all locks are released. -/
def doAllTrace_p5 {V : Type} (t : Table V) : List (ScanEv V) :=
  ((List.range t.length).map ScanEv.lockB)
    ++ t.flatMap (fun b => b.map (fun e => ScanEv.app e.1 e.2))
    ++ [ScanEv.thenCb]
    ++ ((List.range t.length).map ScanEv.unlockB)

/-- Predicate written from the claim: the `then` callback is invoked after
the last application of `f` and before any bucket lock is released. -/
def thenWellPlaced {V : Type} [DecidableEq V] (tr : List (ScanEv V)) : Bool :=
  let pre := tr.takeWhile (fun e => e ≠ ScanEv.thenCb)
  let post := tr.dropWhile (fun e => e ≠ ScanEv.thenCb)
  (!post.isEmpty)
    && post.tail.all (fun e => match e with | ScanEv.app _ _ => false | _ => true)
    && pre.all (fun e => match e with | ScanEv.unlockB _ => false | _ => true)

end ConcurrentHashTable

namespace Storage

/-- One user of the p3 auth table (`Storage::Internal::AuthTableEntry`). -/
structure AuthTableEntry where
  username : String
  pass_hash : String
  content : List Nat
deriving DecidableEq

/-- The fields of the p3 `Storage` object: the two bucketed tables and the
bytes appended so far to the open log file `f_ptr`. -/
structure State where
  auth_table : ConcurrentHashTable.Table AuthTableEntry
  kv_store : ConcurrentHashTable.Table (List Nat)
  log : List Nat
deriving DecidableEq

/-- Bytes of the AUTHAUTH record that `add_user` appends to the log: magic,
username length and bytes, the literal length 16 followed by the 16 raw
digest bytes, and the (zero) content length. -/
def authLogRecord (u : String) (digest16 : List Nat) : List Nat :=
  strBytes "AUTHAUTH" ++ le32 (strBytes u).length ++ strBytes u
    ++ le32 16 ++ digest16.take 16 ++ le32 0

/-- Bytes of a KVKVKVKV record: magic, key length and bytes, value length
and bytes. -/
def kvLogRecord (k : String) (v : List Nat) : List Nat :=
  strBytes "KVKVKVKV" ++ le32 (strBytes k).length ++ strBytes k
    ++ le32 v.length ++ v

/-- Bytes of a KVUPDATE record, written on the update branch of upsert. -/
def kvUpdateRecord (k : String) (v : List Nat) : List Nat :=
  strBytes "KVUPDATE" ++ le32 (strBytes k).length ++ strBytes k
    ++ le32 v.length ++ v

/-- The p3 `Storage::auth`: look the user up (through `do_with`), recompute
the digest of the supplied password, and set `authenticated` exactly when
`entry.pass_hash.compare(check.pass_hash)` is nonzero — that is, when the
stored hash and the recomputed hash DIFFER.  `md5s` abstracts the digest
computation (`MD5` over the string object followed by the C-string
conversion); an absent user leaves `authenticated` false. -/
def auth (md5s : String → String) (hsh : String → Nat) (st : State)
    (user_name pass : String) : Bool :=
  match ConcurrentHashTable.lookup hsh st.auth_table user_name with
  | none => false
  | some entry => if entry.pass_hash = md5s pass then false else true

/-- The p3 `Storage::add_user`: build the entry with the hashed password and
empty content and insert it; on success the callback appends an AUTHAUTH
record (with the 16 raw digest bytes, abstracted by `md5r`) to the log. -/
def add_user (md5s : String → String) (md5r : String → List Nat)
    (hsh : String → Nat) (st : State) (user_name pass : String) :
    Bool × State :=
  let new_user : AuthTableEntry := ⟨user_name, md5s pass, []⟩
  match ConcurrentHashTable.insert hsh st.auth_table user_name new_user with
  | (true, at2, _) =>
      (true, { st with auth_table := at2,
                       log := st.log ++ authLogRecord user_name (md5r pass) })
  | (false, _, _) => (false, st)

/-- The p3 `Storage::kv_insert`: authenticate, then insert; the success
callback appends a KVKVKVKV record to the log; a present key yields
`RES_ERR_KEY` with no mutation. -/
def kv_insert (md5s : String → String) (hsh : String → Nat) (st : State)
    (user_name pass key : String) (val : List Nat) : List Nat × State :=
  if auth md5s hsh st user_name pass = false then
    (strBytes RES_ERR_LOGIN, st)
  else
    match ConcurrentHashTable.insert hsh st.kv_store key val with
    | (true, kv2, _) =>
        (strBytes RES_OK, { st with kv_store := kv2,
                                    log := st.log ++ kvLogRecord key val })
    | (false, _, _) => (strBytes RES_ERR_KEY, st)

/-- The p3 `Storage::kv_get`: authenticate, then read the value through
`do_with_readonly`; the pair's boolean is true exactly on error. -/
def kv_get (md5s : String → String) (hsh : String → Nat) (st : State)
    (user_name pass key : String) : Bool × List Nat :=
  if auth md5s hsh st user_name pass = false then
    (true, strBytes RES_ERR_LOGIN)
  else
    match ConcurrentHashTable.lookup hsh st.kv_store key with
    | none => (true, strBytes RES_ERR_KEY)
    | some v => (false, v)

/-- The p3 `Storage::kv_upsert`: authenticate, then upsert; the insert branch
logs a KVKVKVKV record and answers `RES_OKINS`, the update branch logs a
KVUPDATE record and answers `RES_OKUPD`. -/
def kv_upsert (md5s : String → String) (hsh : String → Nat) (st : State)
    (user_name pass key : String) (val : List Nat) : List Nat × State :=
  if auth md5s hsh st user_name pass = false then
    (strBytes RES_ERR_LOGIN, st)
  else
    match ConcurrentHashTable.upsert hsh st.kv_store key val with
    | (true, kv2, _, _) =>
        (strBytes RES_OKINS, { st with kv_store := kv2,
                                       log := st.log ++ kvLogRecord key val })
    | (false, kv2, _, _) =>
        (strBytes RES_OKUPD, { st with kv_store := kv2,
                                       log := st.log ++ kvUpdateRecord key val })

/-- Snapshot bytes of one auth entry as `Storage::persist` serialises it:
magic, username, pass hash, content, each length-prefixed. -/
def persistAuthRecord (e : AuthTableEntry) : List Nat :=
  strBytes "AUTHAUTH" ++ le32 (strBytes e.username).length ++ strBytes e.username
    ++ le32 (strBytes e.pass_hash).length ++ strBytes e.pass_hash
    ++ le32 e.content.length ++ e.content

/-- All AUTHAUTH snapshot records, in the bucket-by-bucket order of
`do_all_readonly` on the auth table. -/
def authRecs (st : State) : List Nat :=
  st.auth_table.flatMap (fun b => b.flatMap (fun e => persistAuthRecord e.2))

/-- All KVKVKVKV snapshot records, in the bucket-by-bucket order of
`do_all_readonly` on the kv store. -/
def kvRecs (st : State) : List Nat :=
  st.kv_store.flatMap (fun b => b.flatMap (fun e => kvLogRecord e.1 e.2))

/-- A two-file view of the disk: the data file and its `.tmp` sibling
(`none` when the temporary file does not exist). -/
structure FS where
  main : List Nat
  tmp : Option (List Nat)
deriving DecidableEq

/-- The p3 `Storage::persist`: the auth-table scan hands its `then` callback
to the p3 `do_all_readonly`, which runs the callback BEFORE applying `f`
to any pair; the callback is the kv-store scan, so the KVKVKVKV records
are appended to `data` before any AUTHAUTH record.  The accumulated bytes
are written to `<filename>.tmp` and the temporary file is renamed onto the
data file. -/
def persist_p3 (st : State) (_fs : FS) : FS :=
  { main := kvRecs st ++ authRecs st, tmp := none }

end Storage

namespace P1

/-- One user of the p1 auth table. -/
structure AuthTableEntry where
  pass_hash : String
  content : List Nat
deriving DecidableEq

/-- The p1 auth table, a plain `unordered_map` modelled as an association
list in traversal order. -/
abbrev Table := List (String × AuthTableEntry)

/-- The p1 `Storage::auth`: recompute the 32-character hex digest of the
password bytes (abstracted by `md5hex`) and compare it for equality with
the stored hash.  Callers guard the `at()` access, so an absent user is
modelled as false. -/
def auth (md5hex : String → String) (t : Table) (user_name pass : String) : Bool :=
  match ConcurrentHashTable.findVal user_name t with
  | none => false
  | some e => decide (md5hex pass = e.pass_hash)

/-- The p1 `Storage::get_user_data`.  Note the inverted error flag of this
version: every error path returns `false` as the first component and the
success path returns `true` with the content bytes. -/
def get_user_data (md5hex : String → String) (t : Table)
    (user_name pass who : String) : Bool × List Nat :=
  if (ConcurrentHashTable.findVal user_name t).isNone then
    (false, strBytes RES_ERR_LOGIN)
  else if auth md5hex t user_name pass = false then
    (false, strBytes RES_ERR_LOGIN)
  else
    match ConcurrentHashTable.findVal who t with
    | none => (false, strBytes RES_ERR_NO_USER)
    | some w =>
      if w.content.isEmpty then (false, strBytes RES_ERR_NO_DATA)
      else (true, w.content)

/-- The reply of `server_cmd_get` once the user, pass and who fields are
parsed: set `res` to the format error exactly when a bounds check fails,
then UNCONDITIONALLY call `get_user_data` and overwrite `res` with its
message whenever its (inverted) flag is false. -/
def server_cmd_get_reply (md5hex : String → String) (t : Table)
    (user pass who : String) : List Nat :=
  let res := if user.length = 0 ∨ pass.length = 0 ∨ who.length = 0
      ∨ LEN_UNAME < user.length ∨ LEN_PASS < pass.length
      ∨ LEN_UNAME < who.length then RES_ERR_MSG_FMT else RES_OK
  let rv := get_user_data md5hex t user pass who
  if rv.1 then strBytes res else rv.2

/-- The p1 `Storage::add_user`: reject an existing user, otherwise store the
hex digest of the password with empty content. -/
def add_user (md5hex : String → String) (t : Table) (user_name pass : String) :
    Bool × Table :=
  if (ConcurrentHashTable.findVal user_name t).isSome then (false, t)
  else (true, t ++ [(user_name, ⟨md5hex pass, []⟩)])

/-- The reply of `server_cmd_reg` once user and pass are parsed: here the
bounds check does guard the storage call (`else if`). -/
def server_cmd_reg_reply (md5hex : String → String) (t : Table)
    (user pass : String) : List Nat × Table :=
  if user.length = 0 ∨ pass.length = 0
      ∨ LEN_UNAME < user.length ∨ LEN_PASS < pass.length then
    (strBytes RES_ERR_MSG_FMT, t)
  else
    match add_user md5hex t user pass with
    | (false, t2) => (strBytes RES_ERR_USER_EXISTS, t2)
    | (true, t2) => (strBytes RES_OK, t2)

/-- Snapshot bytes of one p1 auth entry, as `Storage::persist` writes it. -/
def persistAuthRecord (u : String) (e : AuthTableEntry) : List Nat :=
  strBytes "AUTHAUTH" ++ le32 (strBytes u).length ++ strBytes u
    ++ le32 (strBytes e.pass_hash).length ++ strBytes e.pass_hash
    ++ le32 e.content.length ++ e.content

/-- The p1 `Storage::persist`: serialise every auth entry into `data` and
write `data` to `<filename>.tmp`.  The function returns immediately after
the write: no rename of the temporary file onto the data file is ever
performed, so the data file itself is left untouched. -/
def persist_p1 (t : Table) (fs : Storage.FS) : Storage.FS :=
  { fs with tmp := some (t.flatMap (fun e => persistAuthRecord e.1 e.2)) }

end P1

namespace quota_tracker

/-- The fields of a `quota_tracker::Internal`: the event deque (timestamp and
amount pairs, in insertion order), the running sum `q_amt`, the maximum and
the duration.  The constructor initialises only `max` and `dur`; `q_amt`
starts as whatever was in the freshly allocated memory, so a construction
site must supply that garbage value explicitly. -/
structure State where
  events : List (Nat × Nat)
  q_amt : Nat
  max : Nat
  dur : Nat
deriving DecidableEq

/-- A tracker as `quota_tracker(amount, duration)` builds it: empty events,
indeterminate `q_amt` (the `garbage` argument), the given bounds.  Time and
duration are modelled in whole seconds, the granularity of `time()`. -/
def fresh (garbage amount duration : Nat) : State :=
  ⟨[], garbage, amount, duration⟩

/-- The copy constructor of `quota_tracker`: the new Internal is built from
`max` and `dur` only, then the event deque is copied across.  The running
sum `q_amt` is NOT copied: it keeps the indeterminate value of the fresh
allocation, supplied here as `garbage`. -/
def copy (garbage : Nat) (other : State) : State :=
  { events := other.events, q_amt := garbage, max := other.max, dur := other.dur }

/-- The `quota_tracker::check` at wall time `now`: first erase every event
with `difftime(now, when) > dur`, then answer whether `q_amt + amount`
stays within `max`.  The running sum is NOT reduced when events are
erased, so the comparison still charges every event ever added.  The
returned state carries the pruned deque. -/
def check (amount now : Nat) (st : State) : Bool × State :=
  let evs := st.events.filter (fun e => !(st.dur < now - e.1))
  let st2 := { st with events := evs }
  if st.max < st.q_amt + amount then (false, st2) else (true, st2)

/-- The `quota_tracker::add` at wall time `now`: raise the running sum and
push the new event at the back; no eviction happens here. -/
def add (amount now : Nat) (st : State) : State :=
  { st with q_amt := st.q_amt + amount, events := st.events ++ [(now, amount)] }

/-- Written from the claim: the amounts of the events still inside the
sliding window (timestamp greater than `now - dur`, read over the
integers) summed up. -/
def windowSum (now dur : Nat) (evs : List (Nat × Nat)) : Nat :=
  (evs.filter (fun e => now < e.1 + dur)).foldl (fun a e => a + e.2) 0

/-- Written from the claim: `check(amount)` at time `now` should hold exactly
when `amount` plus the windowed sum fits under `max`. -/
def check_spec (amount now : Nat) (st : State) : Bool :=
  decide (amount + windowSum now st.dur st.events ≤ st.max)

end quota_tracker

namespace mru_manager

/-- The fields of an `mru_manager::Internal`: the deque (front first, the
back being the most recently inserted end) and the configured capacity. -/
structure State where
  mru : List String
  max : Nat
deriving DecidableEq

/-- The `mru_manager::remove`: erase the first occurrence of the element, if
any (the loop breaks after the first hit). -/
def removeElt (elt : String) : List String → List String
  | [] => []
  | e :: es => if e = elt then es else e :: removeElt elt es

/-- The `mru_manager::remove` on the whole state. -/
def remove (elt : String) (st : State) : State :=
  { st with mru := removeElt elt st.mru }

/-- The `mru_manager::insert`: remove the element, then `push_back` it.  No
comparison against `max` is made anywhere, so the deque can grow past the
configured capacity. -/
def insert (elt : String) (st : State) : State :=
  { st with mru := removeElt elt st.mru ++ [elt] }

/-- The `mru_manager::clear`. -/
def clear (st : State) : State :=
  { st with mru := [] }

/-- The `mru_manager::get`: `rv` is initialised from `*end()` — a
dereference one past the last element, modelled by the `garbage`
parameter — and the loop then walks from `end() - 1` DOWN TO but not
including `begin()`, appending a newline and the element each step.  On an
empty deque `end() - 1` is before `begin()` and the walk itself is
undefined, modelled as `none`. -/
def get (garbage : String) (st : State) : Option String :=
  match st.mru with
  | [] => none
  | _ :: rest => some (rest.reverse.foldl (fun acc s => acc ++ "\n" ++ s) garbage)

/-- Written from the claim: the held keys, newline-delimited, most recent
(the back of the deque) first, empty on an empty index. -/
def get_spec (st : State) : String :=
  String.intercalate "\n" st.mru.reverse

end mru_manager

/-- A concrete p3 storage state with one user and one key/value pair, used to
exhibit the snapshot record order. -/
def sampleStorage : Storage.State :=
  ⟨[[("a", ⟨"a", "h", []⟩)]], [[("k", [7])]], []⟩



namespace ConcurrentHashTable

theorem getD_set_self {α : Type} :
    ∀ (l : List α) (i : Nat) (b d : α), i < l.length → (l.set i b).getD i d = b := by
  intro l
  induction l with
  | nil => intro i b d h; simp at h
  | cons a as ih =>
    intro i b d h
    cases i with
    | zero => simp [List.set]
    | succ j =>
      have hj : j < as.length := by simpa using Nat.lt_of_succ_lt_succ h
      simpa [List.set, List.getD] using ih j b d hj

theorem findVal_append_fresh {V : Type} (k : String) (v : V) :
    ∀ (b : List (String × V)), findVal k b = none →
      findVal k (b ++ [(k, v)]) = some v := by
  intro b
  induction b with
  | nil => intro _; simp [findVal]
  | cons e es ih =>
    intro h
    by_cases he : e.1 = k
    · simp [findVal, he] at h
    · simp [findVal, he] at h ⊢
      exact ih h

theorem findVal_updateVal {V : Type} (k : String) (v : V) :
    ∀ (b : List (String × V)) (w : V), findVal k b = some w →
      findVal k (updateVal k v b) = some v := by
  intro b
  induction b with
  | nil => intro w h; simp [findVal] at h
  | cons e es ih =>
    intro w h
    by_cases he : e.1 = k
    · simp [findVal, updateVal, he]
    · simp [findVal, updateVal, he] at h ⊢
      exact ih w h

/-- After a successful `insert` into a table with at least one bucket the
inserted value is found again and the bucket count is unchanged. -/
theorem insert_true_lookup {V : Type} (hsh : String → Nat) (t : Table V)
    (k : String) (v : V) (hlen : 0 < t.length)
    (h : (insert hsh t k v).1 = true) :
    lookup hsh (insert hsh t k v).2.1 k = some v
    ∧ (insert hsh t k v).2.1.length = t.length := by
  have hlt : bIdx hsh t k < t.length := Nat.mod_lt _ hlen
  by_cases hf : (findVal k (t.getD (bIdx hsh t k) [])).isNone
  · have hfn : findVal k (t.getD (bIdx hsh t k) []) = none :=
      Option.isNone_iff_eq_none.mp hf
    have hset : (t.set (bIdx hsh t k) (t.getD (bIdx hsh t k) [] ++ [(k, v)])).length
        = t.length := List.length_set t _ _
    constructor
    · simp only [insert, lookup, hf, if_true]
      have hidx : bIdx hsh (t.set (bIdx hsh t k) (t.getD (bIdx hsh t k) [] ++ [(k, v)])) k
          = bIdx hsh t k := by
        simp [bIdx, hset]
      rw [hidx, getD_set_self t _ _ _ hlt]
      exact findVal_append_fresh k v _ hfn
    · simp only [insert, hf, if_true]
      exact hset
  · exfalso
    simp only [insert, hf, if_false] at h
    exact Bool.noConfusion h

/-- After an `upsert` (either branch) into a table with at least one bucket
the upserted value is found again and the bucket count is unchanged. -/
theorem upsert_lookup {V : Type} (hsh : String → Nat) (t : Table V)
    (k : String) (v : V) (hlen : 0 < t.length) :
    lookup hsh (upsert hsh t k v).2.1 k = some v
    ∧ (upsert hsh t k v).2.1.length = t.length := by
  have hlt : bIdx hsh t k < t.length := Nat.mod_lt _ hlen
  by_cases hf : (findVal k (t.getD (bIdx hsh t k) [])).isNone
  · have hfn : findVal k (t.getD (bIdx hsh t k) []) = none :=
      Option.isNone_iff_eq_none.mp hf
    have hset : (t.set (bIdx hsh t k) (t.getD (bIdx hsh t k) [] ++ [(k, v)])).length
        = t.length := List.length_set t _ _
    constructor
    · simp only [upsert, lookup, hf, if_true]
      have hidx : bIdx hsh (t.set (bIdx hsh t k) (t.getD (bIdx hsh t k) [] ++ [(k, v)])) k
          = bIdx hsh t k := by
        simp [bIdx, hset]
      rw [hidx, getD_set_self t _ _ _ hlt]
      exact findVal_append_fresh k v _ hfn
    · simp only [upsert, hf, if_true]
      exact hset
  · cases hfv : findVal k (t.getD (bIdx hsh t k) []) with
    | none => exact absurd (Option.isNone_iff_eq_none.mpr hfv) hf
    | some w =>
      have hset : (t.set (bIdx hsh t k) (updateVal k v (t.getD (bIdx hsh t k) []))).length
          = t.length := List.length_set t _ _
      have hidx : bIdx hsh (t.set (bIdx hsh t k) (updateVal k v (t.getD (bIdx hsh t k) []))) k
          = bIdx hsh t k := by
        simp [bIdx, hset]
      have hl : lookup hsh (t.set (bIdx hsh t k) (updateVal k v (t.getD (bIdx hsh t k) []))) k
          = some v := by
        unfold lookup
        rw [hidx, getD_set_self t _ _ _ hlt]
        exact findVal_updateVal k v _ w hfv
      have hup : upsert hsh t k v
          = (false, t.set (bIdx hsh t k) (updateVal k v (t.getD (bIdx hsh t k) [])), 0, 1) := by
        simp only [upsert]
        rw [if_neg hf]
      rw [hup]
      exact ⟨hl, hset⟩

end ConcurrentHashTable

namespace Storage

/-- Authentication reads only the auth table, so states sharing it agree. -/
theorem auth_eq_of_auth_table_eq (md5s : String → String) (hsh : String → Nat)
    {st st2 : State} (h : st2.auth_table = st.auth_table) (u p : String) :
    auth md5s hsh st2 u p = auth md5s hsh st u p := by
  simp [auth, h]

/-- Shape of the state after an authenticated `kv_insert` that answered
`RES_OK`: the auth table is untouched and the kv store is the table the
underlying insert produced (and that insert did succeed). -/
theorem kv_insert_ok_state (md5s : String → String) (hsh : String → Nat)
    (st : State) (u p k : String) (v : List Nat)
    (hauth : auth md5s hsh st u p = true)
    (hok : (kv_insert md5s hsh st u p k v).1 = strBytes RES_OK) :
    (ConcurrentHashTable.insert hsh st.kv_store k v).1 = true
    ∧ (kv_insert md5s hsh st u p k v).2.auth_table = st.auth_table
    ∧ (kv_insert md5s hsh st u p k v).2.kv_store
        = (ConcurrentHashTable.insert hsh st.kv_store k v).2.1 := by
  unfold kv_insert at hok ⊢
  rw [hauth] at hok ⊢
  rcases hI : ConcurrentHashTable.insert hsh st.kv_store k v with ⟨flag, kv2, n⟩
  rw [hI] at hok
  cases flag with
  | true => simp
  | false =>
    exfalso
    simp at hok
    exact absurd hok (by decide)

/-- Shape of the state after an authenticated `kv_upsert` (either branch). -/
theorem kv_upsert_state (md5s : String → String) (hsh : String → Nat)
    (st : State) (u p k : String) (v : List Nat)
    (hauth : auth md5s hsh st u p = true) :
    (kv_upsert md5s hsh st u p k v).2.auth_table = st.auth_table
    ∧ (kv_upsert md5s hsh st u p k v).2.kv_store
        = (ConcurrentHashTable.upsert hsh st.kv_store k v).2.1 := by
  unfold kv_upsert
  rw [hauth]
  rcases hU : ConcurrentHashTable.upsert hsh st.kv_store k v with ⟨flag, kv2, a, b⟩
  cases flag with
  | true => simp
  | false => simp

end Storage

/-- C1: the claim says that after a successful REG(u, p), auth(u, p) is true
and auth(u, p') is false for p' with a different digest.  The p3 code does
the opposite: `Storage::auth` sets `authenticated` when the stored and the
recomputed hashes DIFFER, so right after registration the correct password
is rejected and any password with a different digest is accepted —
whatever digest function the abstract `md5s` stands for. -/
theorem c1_reg_then_auth_divergence :
    ∀ (md5s : String → String) (md5r : String → List Nat) (hsh : String → Nat),
      (Storage.add_user md5s md5r hsh ⟨[[]], [[]], []⟩ "alice" "pw").1 = true
      ∧ Storage.auth md5s hsh
          (Storage.add_user md5s md5r hsh ⟨[[]], [[]], []⟩ "alice" "pw").2
          "alice" "pw" = false
      ∧ (∀ pw2 : String, md5s pw2 ≠ md5s "pw" →
          Storage.auth md5s hsh
            (Storage.add_user md5s md5r hsh ⟨[[]], [[]], []⟩ "alice" "pw").2
            "alice" pw2 = true) := by
  intro md5s md5r hsh
  refine ⟨?_, ?_, ?_⟩
  · simp [Storage.add_user, ConcurrentHashTable.insert, ConcurrentHashTable.bIdx,
      ConcurrentHashTable.findVal, Nat.mod_one]
  · simp [Storage.add_user, Storage.auth, ConcurrentHashTable.insert,
      ConcurrentHashTable.lookup, ConcurrentHashTable.bIdx,
      ConcurrentHashTable.findVal, Nat.mod_one]
  · intro pw2 hne
    simp [Storage.add_user, Storage.auth, ConcurrentHashTable.insert,
      ConcurrentHashTable.lookup, ConcurrentHashTable.bIdx,
      ConcurrentHashTable.findVal, Nat.mod_one, Ne.symm hne]

/-- Witness for C1 at a concrete digest function: with the identity digest,
registering alice with password pw makes auth reject pw and accept xx. -/
theorem c1_reg_then_auth_divergence_witness :
    (Storage.add_user (fun s => s) (fun _ => []) (fun _ => 0)
        ⟨[[]], [[]], []⟩ "alice" "pw").1 = true
    ∧ Storage.auth (fun s => s) (fun _ => 0)
        (Storage.add_user (fun s => s) (fun _ => []) (fun _ => 0)
          ⟨[[]], [[]], []⟩ "alice" "pw").2 "alice" "pw" = false
    ∧ Storage.auth (fun s => s) (fun _ => 0)
        (Storage.add_user (fun s => s) (fun _ => []) (fun _ => 0)
          ⟨[[]], [[]], []⟩ "alice" "pw").2 "alice" "xx" = true := by
  have h := c1_reg_then_auth_divergence (fun s => s) (fun _ => []) (fun _ => 0)
  exact ⟨h.1, h.2.1, h.2.2 "xx" (by decide)⟩

/-- C2: the claim says check(amount) at time t succeeds exactly when amount
plus the windowed sum fits under the maximum, the consumed amount being
released once the duration has elapsed.  In the code the eviction loop
removes expired events from the deque but never subtracts their amounts
from the running sum `q_amt`, so the consumed amount is never released:
with max 10 and duration 5, an add of 10 at time 0 still blocks a check
of 1 at time 10, although the window is empty (the check even prunes the
deque to empty while keeping the charge). -/
theorem c2_quota_check_never_releases :
    (quota_tracker.check 1 10 (quota_tracker.add 10 0 (quota_tracker.fresh 0 10 5))).1 = false
    ∧ quota_tracker.check_spec 1 10 (quota_tracker.add 10 0 (quota_tracker.fresh 0 10 5)) = true
    ∧ (quota_tracker.check 1 10 (quota_tracker.add 10 0 (quota_tracker.fresh 0 10 5))).2.events
        = [] := by
  decide

/-- C5: the claim says the index never holds more than K keys and that an
insert overflowing the capacity drops the least-recent key.
`mru_manager::insert` only removes a previous occurrence and pushes at
the back; no comparison with `max` is made, so with capacity 1 two
inserts leave two keys in the index. -/
theorem c5_mru_capacity_not_enforced :
    (mru_manager.insert "b" (mru_manager.insert "a" ⟨[], 1⟩)).mru = ["a", "b"]
    ∧ (mru_manager.insert "b" (mru_manager.insert "a" ⟨[], 1⟩)).max
        < (mru_manager.insert "b" (mru_manager.insert "a" ⟨[], 1⟩)).mru.length := by
  decide

/-- C6: the claim says get() returns exactly the held keys, newline
delimited, most recent first, and an empty string on an empty index.  The
code initialises the result from the dereferenced past-the-end iterator
(garbage) and stops the walk before `begin()`, so the least-recent key is
never emitted: on the index holding just a, the result is the garbage
string alone instead of a; on a, b the front key a is missing; on an
empty index the walk itself is undefined. -/
theorem c6_mru_get_divergence :
    mru_manager.get "" ⟨["a"], 2⟩ = some ""
    ∧ mru_manager.get_spec ⟨["a"], 2⟩ = "a"
    ∧ mru_manager.get "" ⟨["a", "b"], 2⟩ = some "\nb"
    ∧ mru_manager.get_spec ⟨["a", "b"], 2⟩ = "b\na"
    ∧ mru_manager.get "" ⟨["a"], 2⟩ ≠ some (mru_manager.get_spec ⟨["a"], 2⟩)
    ∧ mru_manager.get "" ⟨[], 2⟩ = none := by
  refine ⟨rfl, rfl, rfl, rfl, by decide, rfl⟩

/-- C3: the claim says persist writes every AUTHENTRY record, then every
KVKVKVKV record, to the temporary file and renames it onto the data file.
Two divergences: the p1 persist stops after writing the temporary file —
it never renames, so the data file never contains the snapshot (first
three conjuncts); and the p3 persist hands the kv scan to the p3
`do_all_readonly` as the `then` callback, which that implementation runs
BEFORE the pair scan, so the snapshot that does get installed lists the
KVKVKVKV records before the AUTHENTRY records (last two conjuncts). -/
theorem c3_persist_divergence :
    (∀ (t : P1.Table) (fs : Storage.FS), (P1.persist_p1 t fs).main = fs.main)
    ∧ (P1.persist_p1 [("a", ⟨"h", [1]⟩)] ⟨[], none⟩).main = []
    ∧ (P1.persist_p1 [("a", ⟨"h", [1]⟩)] ⟨[], none⟩).tmp
        = some (P1.persistAuthRecord "a" ⟨"h", [1]⟩)
    ∧ P1.persistAuthRecord "a" ⟨"h", [1]⟩ ≠ []
    ∧ (Storage.persist_p3 sampleStorage ⟨[], none⟩).main
        = Storage.kvRecs sampleStorage ++ Storage.authRecs sampleStorage
    ∧ Storage.kvRecs sampleStorage ++ Storage.authRecs sampleStorage
        ≠ Storage.authRecs sampleStorage ++ Storage.kvRecs sampleStorage := by
  refine ⟨fun t fs => rfl, rfl, rfl, by decide, rfl, by decide⟩

/-- C8: the claim says do_all_readonly applies f to every pair and invokes
the then callback only after the last application, before any lock is
released.  The p5 implementation does exactly that, but the p3
implementation invokes `then()` first and scans the pairs afterwards, as
the trace on a one-bucket, one-pair table shows. -/
theorem c8_then_runs_before_scan :
    ConcurrentHashTable.doAllTrace_p3 [[("k", [7])]]
      = [ConcurrentHashTable.ScanEv.lockB 0, ConcurrentHashTable.ScanEv.thenCb,
         ConcurrentHashTable.ScanEv.app "k" [7], ConcurrentHashTable.ScanEv.unlockB 0]
    ∧ ConcurrentHashTable.thenWellPlaced (ConcurrentHashTable.doAllTrace_p3 [[("k", [7])]])
        = false
    ∧ ConcurrentHashTable.doAllTrace_p5 [[("k", [7])]]
      = [ConcurrentHashTable.ScanEv.lockB 0, ConcurrentHashTable.ScanEv.app "k" [7],
         ConcurrentHashTable.ScanEv.thenCb, ConcurrentHashTable.ScanEv.unlockB 0]
    ∧ ConcurrentHashTable.thenWellPlaced (ConcurrentHashTable.doAllTrace_p5 [[("k", [7])]])
        = true := by
  refine ⟨by decide, by decide, by decide, by decide⟩

/-- C9: the claim says any request whose user, pass or who field violates its
length bound is answered with the format error and nothing else.  In
`server_cmd_get` the format error is computed but the storage call is not
guarded: its result overwrites `res` whenever the (inverted) error flag of
the p1 `get_user_data` is false, so a GET with an empty user field on an
empty table is answered with ERR_LOGIN instead of ERR_MSG_FMT — for every
digest function. -/
theorem c9_get_bounds_reply_clobbered :
    ∀ (md5hex : String → String),
      P1.server_cmd_get_reply md5hex [] "" "pw" "bob" = strBytes RES_ERR_LOGIN
      ∧ strBytes RES_ERR_LOGIN ≠ strBytes RES_ERR_MSG_FMT := by
  intro md5hex
  exact ⟨rfl, by decide⟩

/-- C10 counterexample: copy-constructing is claimed to preserve the result
of every check at the same instant.  The copy constructor copies the event
deque but not the running sum, which keeps the indeterminate value of the
fresh allocation: after an add of 10 on a (10, 5) tracker, a check of 1 at
time 0 fails on the original yet succeeds on a copy whose indeterminate
running sum happens to be 0. -/
theorem c10_copy_check_differs :
    (quota_tracker.check 1 0
        (quota_tracker.copy 0 (quota_tracker.add 10 0 (quota_tracker.fresh 0 10 5)))).1 = true
    ∧ (quota_tracker.check 1 0 (quota_tracker.add 10 0 (quota_tracker.fresh 0 10 5))).1
        = false := by
  decide

/-- C10 amended: the copy carries over the event sequence, the maximum and
the duration, but not the running sum, which is indeterminate in the
copy; a check on the copy agrees with the original whenever the copied-in
garbage happens to equal the original running sum. -/
theorem c10_copy_carries_only_events :
    ∀ (g : Nat) (st : quota_tracker.State),
      (quota_tracker.copy g st).events = st.events
      ∧ (quota_tracker.copy g st).max = st.max
      ∧ (quota_tracker.copy g st).dur = st.dur
      ∧ (g = st.q_amt → ∀ (a now : Nat),
          (quota_tracker.check a now (quota_tracker.copy g st)).1
            = (quota_tracker.check a now st).1) := by
  intro g st
  refine ⟨rfl, rfl, rfl, ?_⟩
  intro h a now
  subst h
  simp [quota_tracker.check, quota_tracker.copy, apply_ite]

/-- Witness for the amended C10: applying the theorem at garbage 10 and a
tracker whose running sum is 10 discharges the side condition. -/
theorem c10_copy_carries_only_events_witness :
    (quota_tracker.copy 10 ⟨[(0, 10)], 10, 10, 5⟩).events
        = (⟨[(0, 10)], 10, 10, 5⟩ : quota_tracker.State).events
    ∧ (quota_tracker.check 1 0 (quota_tracker.copy 10 ⟨[(0, 10)], 10, 10, 5⟩)).1
        = (quota_tracker.check 1 0 (⟨[(0, 10)], 10, 10, 5⟩ : quota_tracker.State)).1 :=
  ⟨(c10_copy_carries_only_events 10 ⟨[(0, 10)], 10, 10, 5⟩).1,
   (c10_copy_carries_only_events 10 ⟨[(0, 10)], 10, 10, 5⟩).2.2.2 rfl 1 0⟩

/-- A concrete p3 storage state (one registered user, an empty one-bucket kv
store) on which authentication succeeds under the digest function used by
the round-trip witness. -/
def c4Sample : Storage.State :=
  ⟨[[("alice", ⟨"alice", "h1", []⟩)]], [[]], []⟩

/-- C4: under a succeeding authentication, kv_insert answering OK followed by
kv_get returns exactly the inserted bytes, and two kv_upserts of the same
key followed by kv_get return exactly the second value — for every digest
function, hash function and starting state with at least one bucket. -/
theorem c4_kv_roundtrip (md5s : String → String) (hsh : String → Nat)
    (st : Storage.State) (u p k : String) (v v1 v2 : List Nat)
    (hauth : Storage.auth md5s hsh st u p = true)
    (hlen : 0 < st.kv_store.length) :
    ((Storage.kv_insert md5s hsh st u p k v).1 = strBytes RES_OK →
      Storage.kv_get md5s hsh (Storage.kv_insert md5s hsh st u p k v).2 u p k
        = (false, v))
    ∧ Storage.kv_get md5s hsh
        (Storage.kv_upsert md5s hsh (Storage.kv_upsert md5s hsh st u p k v1).2 u p k v2).2
        u p k = (false, v2) := by
  constructor
  · intro hok
    obtain ⟨hins, hat, hkv⟩ := Storage.kv_insert_ok_state md5s hsh st u p k v hauth hok
    have hauth2 : Storage.auth md5s hsh (Storage.kv_insert md5s hsh st u p k v).2 u p
        = true := by
      rw [Storage.auth_eq_of_auth_table_eq md5s hsh hat]
      exact hauth
    have hlook := ConcurrentHashTable.insert_true_lookup hsh st.kv_store k v hlen hins
    unfold Storage.kv_get
    rw [hauth2, if_neg (by simp), hkv, hlook.1]
  · obtain ⟨hat1, hkv1⟩ := Storage.kv_upsert_state md5s hsh st u p k v1 hauth
    have hauth1 : Storage.auth md5s hsh (Storage.kv_upsert md5s hsh st u p k v1).2 u p
        = true := by
      rw [Storage.auth_eq_of_auth_table_eq md5s hsh hat1]
      exact hauth
    have hup1 := ConcurrentHashTable.upsert_lookup hsh st.kv_store k v1 hlen
    have hlen1 : 0 < (Storage.kv_upsert md5s hsh st u p k v1).2.kv_store.length := by
      rw [hkv1, hup1.2]
      exact hlen
    obtain ⟨hat2, hkv2⟩ :=
      Storage.kv_upsert_state md5s hsh (Storage.kv_upsert md5s hsh st u p k v1).2 u p k v2 hauth1
    have hauth2 : Storage.auth md5s hsh
        (Storage.kv_upsert md5s hsh (Storage.kv_upsert md5s hsh st u p k v1).2 u p k v2).2 u p
        = true := by
      rw [Storage.auth_eq_of_auth_table_eq md5s hsh hat2]
      exact hauth1
    have hup2 := ConcurrentHashTable.upsert_lookup hsh
      (Storage.kv_upsert md5s hsh st u p k v1).2.kv_store k v2 hlen1
    unfold Storage.kv_get
    rw [hauth2, if_neg (by simp), hkv2, hup2.1]

/-- Witness for C4 at a concrete state and digest: both round trips evaluate
as the theorem states. -/
theorem c4_kv_roundtrip_witness :
    Storage.kv_get (fun _ => "h2") (fun _ => 0)
        (Storage.kv_insert (fun _ => "h2") (fun _ => 0) c4Sample "alice" "pw" "k" [1]).2
        "alice" "pw" "k" = (false, [1])
    ∧ Storage.kv_get (fun _ => "h2") (fun _ => 0)
        (Storage.kv_upsert (fun _ => "h2") (fun _ => 0)
          (Storage.kv_upsert (fun _ => "h2") (fun _ => 0) c4Sample "alice" "pw" "k" [2]).2
          "alice" "pw" "k" [3]).2
        "alice" "pw" "k" = (false, [3]) := by
  have h := c4_kv_roundtrip (fun _ => "h2") (fun _ => 0) c4Sample
    "alice" "pw" "k" [1] [2] [3] (by decide) (by decide)
  exact ⟨h.1 (by decide), h.2⟩

/-- C7: insert on a present key answers exists with no mutation and no
callback; insert on an absent key appends the pair to the bucket of the
key, runs the callback exactly once and answers inserted. -/
theorem c7_insert_contract {V : Type} (hsh : String → Nat)
    (t : ConcurrentHashTable.Table V) (k : String) (v : V) :
    ((ConcurrentHashTable.findVal k
        (t.getD (ConcurrentHashTable.bIdx hsh t k) [])).isNone = false →
      ConcurrentHashTable.insert hsh t k v = (false, t, 0))
    ∧ ((ConcurrentHashTable.findVal k
        (t.getD (ConcurrentHashTable.bIdx hsh t k) [])).isNone = true →
      ConcurrentHashTable.insert hsh t k v
        = (true, t.set (ConcurrentHashTable.bIdx hsh t k)
            (t.getD (ConcurrentHashTable.bIdx hsh t k) [] ++ [(k, v)]), 1)) := by
  constructor
  · intro h
    simp only [ConcurrentHashTable.insert]
    rw [h, if_neg (show ¬(false = true) by decide)]
  · intro h
    simp only [ConcurrentHashTable.insert]
    rw [h, if_pos (show true = true from rfl)]

/-- Witness for C7: both branches of the contract evaluated on a concrete
one-bucket table. -/
theorem c7_insert_contract_witness :
    ConcurrentHashTable.insert (fun _ => 0) [[("a", (1 : Nat))]] "a" 5
      = (false, [[("a", 1)]], 0)
    ∧ ConcurrentHashTable.insert (fun _ => 0) [[("a", (1 : Nat))]] "b" 5
      = (true, [[("a", 1), ("b", 5)]], 1) := by
  constructor
  · exact (c7_insert_contract (fun _ => 0) [[("a", (1 : Nat))]] "a" 5).1 (by decide)
  · exact (c7_insert_contract (fun _ => 0) [[("a", (1 : Nat))]] "b" 5).2 (by decide)
